import Mathlib

/-!
Shallow embedding of the ad-naming-tool pipeline (transcript classification,
sequence allocation, filename composition, folder reference resolution),
translated from the TypeScript sources under `src/`.

Strings are modelled as Lean `String` / `List Char`.  JavaScript string
operations are embedded as follows (faithful for the ASCII inputs the
pipeline handles):
* `toLowerCase()`  ↦ `Char.toLower` mapped over the characters;
* `includes(p)`    ↦ substring search (`jsIncludes`);
* `\w`             ↦ ASCII letters, digits and `_`;
* `\s`             ↦ ASCII whitespace;
* `trim()`         ↦ dropping whitespace on both ends;
* `n.toString()`   ↦ decimal rendering (`natToDigits`);
* `padStart(w,"0")`↦ `padStart`.
-/

namespace AdNamingTool

/-- ASCII whitespace, the characters JavaScript `\s` matches on the
transcripts handled by the tool. -/
def isWs (c : Char) : Bool :=
  c = ' ' || c = '\t' || c = '\n' || c = '\r' || c = '\x0b' || c = '\x0c'

/-- JavaScript `\w`: ASCII letters, digits, underscore. -/
def isWordChar (c : Char) : Bool :=
  c.isAlphanum || c = '_'

/-- Lower-cased character list of a string (JS `s.toLowerCase()`). -/
def lowerL (s : String) : List Char :=
  s.data.map Char.toLower

/-- JS `s.includes(pat)`: `pat` occurs as a contiguous substring of `s`. -/
def jsIncludes (s pat : List Char) : Bool :=
  pat.isPrefixOf s ||
    match s with
    | [] => false
    | _ :: s' => jsIncludes s' pat

/-- Payment-related denylist from `src/app/api/process-video/route.ts`
(`PAYMENT_PHRASES`). -/
def PAYMENT_PHRASES : List String :=
  ["$12.95", "$12", "12.95",
   "every dollar equals entries", "dollar equals entries",
   "dollars equal entries", "entry per dollar", "entries per dollar",
   "cost", "price", "payment", "pay", "charge", "purchase", "buy",
   "credit card", "debit card"]

/-- `isTTSSafe` from `src/app/api/process-video/route.ts`: the transcript is
TikTok-safe iff no denylisted phrase occurs in it case-insensitively. -/
def isTTSSafe (transcript : String) : Bool :=
  !(PAYMENT_PHRASES.any fun phrase => jsIncludes (lowerL transcript) (lowerL phrase))

/-- Payment-related denylist from `src/app/api/transcribe/route.ts`
(`PAYMENT_PHRASES` there). -/
def PAYMENT_PHRASES_TRANSCRIBE : List String :=
  ["12.95", "$12", "twelve ninety-five", "twelve dollars",
   "every dollar equals entries", "dollar equals entries",
   "dollars equal entries", "entry per dollar", "entries per dollar",
   "cost", "price", "payment", "pay ", "charge", "purchase", "buy now",
   "credit card", "debit card"]

/-- `isTTSSafe` from `src/app/api/transcribe/route.ts`. -/
def isTTSSafeTranscribe (transcript : String) : Bool :=
  !(PAYMENT_PHRASES_TRANSCRIBE.any fun phrase =>
      jsIncludes (lowerL transcript) (lowerL phrase))

/-- First cleanup step of `extractDescription`:
`transcript.replace(/[^\w\s]/g, " ")`. -/
def punctToSpace (l : List Char) : List Char :=
  l.map fun c => if isWordChar c || isWs c then c else ' '

/-- Helper for `collapseWs`; the flag records whether the previous
character belonged to a whitespace run whose single space was already
emitted. -/
def collapseWsAux : Bool → List Char → List Char
  | _, [] => []
  | inWs, c :: s =>
    if isWs c then
      if inWs then collapseWsAux true s else ' ' :: collapseWsAux true s
    else c :: collapseWsAux false s

/-- Second cleanup step: `.replace(/\s+/g, " ")`, collapsing every maximal
run of whitespace into a single space. -/
def collapseWs (l : List Char) : List Char :=
  collapseWsAux false l

/-- JS `trim()`: strip whitespace from both ends. -/
def jsTrim (l : List Char) : List Char :=
  ((l.dropWhile isWs).reverse.dropWhile isWs).reverse

/-- The clean-up pipeline shared by both `extractDescription` variants:
strip punctuation, collapse whitespace, trim. -/
def cleanTranscript (transcript : String) : List Char :=
  jsTrim (collapseWs (punctToSpace transcript.data))

/-- Stop-word set of `extractDescription` in
`src/app/api/transcribe/route.ts` (`skipWords`). -/
def SKIP_WORDS : List (List Char) :=
  ["the", "a", "an", "is", "are", "this", "that", "and", "or", "but",
   "hey", "hi", "hello", "so", "um", "uh"].map String.data

/-- JS `w.charAt(0).toUpperCase() + w.slice(1).toLowerCase()`. -/
def capitalizeWord : List Char → List Char
  | [] => []
  | c :: cs => c.toUpper :: cs.map Char.toLower

/-- `extractDescription` from `src/app/api/transcribe/route.ts`: clean the
transcript, split on spaces, drop stop words and words of length ≤ 2, take
the first 4 words, capitalize each, concatenate, truncate to 25 characters,
and fall back to `"Ad"` when empty. -/
def extractDescription (transcript : String) : String :=
  let cleaned := cleanTranscript transcript
  let words := (cleaned.splitOn ' ').filter fun w =>
    decide (2 < w.length) && !(SKIP_WORDS.contains (w.map Char.toLower))
  let description := ((words.take 4).map capitalizeWord).flatten
  let limited := description.take 25
  if limited.isEmpty then "Ad" else limited.asString

/-- `extractDescription` from `src/app/api/process-video/route.ts`: clean the
transcript, take the first 5 words joined with `_`, truncate to 30
characters, strip trailing underscores, fall back to `"Ad"`. -/
def extractDescriptionPV (transcript : String) : String :=
  let cleaned := cleanTranscript transcript
  let words := (cleaned.splitOn ' ').take 5
  let description := (List.intercalate ['_'] words).take 30
  let stripped := (description.reverse.dropWhile (· = '_')).reverse
  if stripped.isEmpty then "Ad" else stripped.asString

/-- Decimal digit character for `d < 10` (the characters JS number
rendering produces). -/
def digitChar (d : Nat) : Char :=
  if d = 0 then '0' else if d = 1 then '1' else if d = 2 then '2'
  else if d = 3 then '3' else if d = 4 then '4' else if d = 5 then '5'
  else if d = 6 then '6' else if d = 7 then '7' else if d = 8 then '8'
  else '9'

/-- Numeric value of a decimal digit character. -/
def digitVal (c : Char) : Nat :=
  c.toNat - 48

/-- JS `parseInt(s, 10)` on a string of decimal digits. -/
def parseDigits (l : List Char) : Nat :=
  l.foldl (fun a c => a * 10 + digitVal c) 0

/-- Fuel-indexed helper for `natToDigits`; `fuel > n` always suffices
because the value shrinks by a factor of 10 every step. -/
def natToDigitsAux : Nat → Nat → List Char → List Char
  | 0, _, acc => acc
  | fuel + 1, n, acc =>
    if n < 10 then digitChar n :: acc
    else natToDigitsAux fuel (n / 10) (digitChar (n % 10) :: acc)

/-- JS `n.toString()` for a non-negative integer: standard decimal
rendering, most significant digit first. -/
def natToDigits (n : Nat) : List Char :=
  natToDigitsAux (n + 1) n []

/-- JS `s.padStart(w, c)`. -/
def padStart (w : Nat) (c : Char) (l : List Char) : List Char :=
  List.replicate (w - l.length) c ++ l

/-- The per-name matcher of the sequence allocator in
`src/app/api/process-video/route.ts` (lines 193–197): the regex
`^<multiplier>(\d+)` applied to an existing file name, returning the parsed
digit run when the name starts with the multiplier code followed by at
least one digit. -/
def matchSeqPrefix (code : String) (name : String) : Option Nat :=
  if code.data.isPrefixOf name.data then
    let digits := (name.data.drop code.data.length).takeWhile Char.isDigit
    if digits.isEmpty then none else some (parseDigits digits)
  else none

/-- The sequence-allocation loop of `src/app/api/process-video/route.ts`
(lines 184–205): starting from `startingSequence`, for every existing name
matching `^<code>(\d+)` with value `v`, bump the sequence to `v + 1`
whenever `v` is at least the current sequence. -/
def allocate (code : String) (existingNames : List String)
    (startingSequence : Nat) : Nat :=
  existingNames.foldl
    (fun seq name =>
      match matchSeqPrefix code name with
      | some v => if seq ≤ v then v + 1 else seq
      | none => seq)
    startingSequence

/-- The filename template of `src/app/api/process-video/route.ts`
(lines 207–212): sequence padded to 2 digits, `.TTS` label only when safe,
then creator code, description and duration. -/
def composeProcessVideo (multiplier : String) (sequence : Nat)
    (ttsSafe : Bool) (creatorCode description : String)
    (duration : Nat) : String :=
  let seqStr := (padStart 2 '0' (natToDigits sequence)).asString
  let ttsLabel := if ttsSafe then ".TTS" else ""
  multiplier ++ seqStr ++ ttsLabel ++ "." ++ creatorCode ++ "." ++
    description ++ "." ++ (natToDigits duration).asString ++ "sec.mp4"

/-- The fixed naming configuration of `src/app/page.tsx`: creator code and
initials (the result of `getInitials()`), and the starting sequence. -/
structure NamingConfig where
  creatorCode : String
  initials : String
  startingSequence : Nat

/-- `generateFileName` from `src/app/page.tsx` (lines 87–102): sequence is
`startingSequence + index` zero-padded to 4 digits; the safety label is
`TTS`/`NTTS`; an empty description falls back to `"Ad"` (JS
`description || "Ad"`); duration is interpolated as a decimal number. -/
def generateFileName (cfg : NamingConfig) (index : Nat) (multiplier : String)
    (ttsSafe : Bool) (description : String) (duration : Nat) : String :=
  let sequence := (padStart 4 '0' (natToDigits (cfg.startingSequence + index))).asString
  let ttsLabel := if ttsSafe then "TTS" else "NTTS"
  let desc := if description = "" then "Ad" else description
  multiplier ++ cfg.creatorCode ++ sequence ++ "." ++ ttsLabel ++ "." ++
    cfg.initials ++ "." ++ desc ++ "." ++ (natToDigits duration).asString ++ "sec.mp4"

/-- One token of the multiplier regexes of
`src/app/api/process-video/route.ts` (lines 42–59): a literal, `\s*`, or an
optional single character (`s?`). -/
inductive Tok where
  | lit (l : List Char)
  | ws
  | opt (c : Char)
deriving DecidableEq

/-- Anchored matching of a token sequence at the head of the input.  `\s*`
is consumed greedily, which is complete here because every `\s*` in the
source patterns is followed by a literal starting with a non-whitespace
character; the optional character tries both alternatives. -/
def matchToks : List Tok → List Char → Bool
  | [], _ => true
  | Tok.lit l :: ts, s => l.isPrefixOf s && matchToks ts (s.drop l.length)
  | Tok.ws :: ts, s => matchToks ts (s.dropWhile isWs)
  | Tok.opt c :: ts, s =>
    (match s with
     | [] => false
     | c' :: s' => decide (c' = c) && matchToks ts s') || matchToks ts s

/-- Unanchored regex search (JS `pattern.test`): try to match at every
suffix of the input. -/
def searchToks (p : List Tok) : List Char → Bool
  | [] => matchToks p []
  | c :: s' => matchToks p (c :: s') || searchToks p s'

/-- Literal token from a string. -/
def litS (s : String) : Tok := Tok.lit s.data

/-- Pattern `/<x>\s*entr/i`. -/
def xEntr (x : String) : List Tok := [litS x, Tok.ws, litS "entr"]

/-- Pattern `/<w>\s*times?\s*entr/i`. -/
def timesEntr (w : String) : List Tok :=
  [litS w, Tok.ws, litS "time", Tok.opt 's', Tok.ws, litS "entr"]

/-- `MULTIPLIER_PATTERNS` of `src/app/api/process-video/route.ts`
(lines 42–59), in source order.  The `/i` flag is realized by lower-casing
the input; all pattern literals are already lower case. -/
def MULTIPLIER_PATTERNS : List (List Tok × String) :=
  [(xEntr "5x", "5000"), (timesEntr "five", "5000"), ([litS "quintuple"], "5000"),
   (xEntr "4x", "4000"), (timesEntr "four", "4000"), ([litS "quadruple"], "4000"),
   (xEntr "3x", "3000"), (timesEntr "three", "3000"), ([litS "triple"], "3000"),
   (xEntr "2x", "2000"), (timesEntr "two", "2000"), ([litS "double"], "2000"),
   ([litS "end", Tok.ws, litS "of", Tok.ws, litS "sweeps"], "0001"),
   ([litS "last", Tok.ws, litS "chance"], "0001"),
   ([litS "final", Tok.ws, litS "day", Tok.opt 's'], "0001"),
   ([litS "ending", Tok.ws, litS "soon"], "0001")]

/-- Whether one multiplier rule fires on a transcript
(`pattern.test(transcript)` with the `/i` flag). -/
def patTest (r : List Tok × String) (transcript : String) : Bool :=
  searchToks r.1 (lowerL transcript)

/-- `detectMultiplier` of `src/app/api/process-video/route.ts` (lines
61–68): the code of the first matching rule, `"1000"` when none match. -/
def detectMultiplier (transcript : String) : String :=
  match MULTIPLIER_PATTERNS.find? (fun r => patTest r transcript) with
  | some r => r.2
  | none => "1000"

/-- The six multiplier codes the classifier can produce. -/
def MULTIPLIER_CODES : List String :=
  ["5000", "4000", "3000", "2000", "1000", "0001"]

/-- Characters accepted by the folder-id character class
`[a-zA-Z0-9_-]` of `src/app/page.tsx`. -/
def isIdChar (c : Char) : Bool :=
  c.isAlphanum || c = '_' || c = '-'

/-- First match of the regex `/\/folders\/([a-zA-Z0-9_-]+)/`: scan left to
right; at each position require the literal `"/folders/"` followed by at
least one id character, and capture the maximal id-character run. -/
def findFoldersId : List Char → Option (List Char)
  | [] => none
  | c :: s =>
    if "/folders/".data.isPrefixOf (c :: s) then
      let idChars := ((c :: s).drop 9).takeWhile isIdChar
      if idChars.isEmpty then findFoldersId s else some idChars
    else findFoldersId s

/-- `extractFolderId` of `src/app/page.tsx` (lines 39–44): the captured
`/folders/<id>` segment when present, else the trimmed input when it is a
non-empty run of id characters, else `none` (JS `null`). -/
def extractFolderId (url : String) : Option String :=
  match findFoldersId url.data with
  | some idChars => some idChars.asString
  | none =>
    let t := jsTrim url.data
    if !t.isEmpty && t.all isIdChar then some t.asString else none

/-- Upstream outcome of the transcription pipeline in
`src/app/api/transcribe/route.ts`: a transcript was obtained, the video
exceeded the 25 MB transcription size limit, or the fetch/decoding threw. -/
inductive UpstreamOutcome where
  | ok (transcript : String)
  | oversize
  | failure

/-- The classification fields of the transcribe route's JSON response. -/
structure TranscribeResponse where
  transcript : Option String
  ttsSafe : Bool
  description : String
  isError : Bool

/-- The response construction of the transcribe route's `POST` handler:
on success the classifiers run on the transcript; on the size-limit branch
(lines 97–104) and on the catch-all error branch (lines 128–134) the
handler answers with the safe defaults `isTTSSafe: true`,
`description: "Ad"` together with an error flag. -/
def transcribePost : UpstreamOutcome → TranscribeResponse
  | UpstreamOutcome.ok t =>
    ⟨some t, isTTSSafeTranscribe t, extractDescription t, false⟩
  | UpstreamOutcome.oversize => ⟨none, true, "Ad", true⟩
  | UpstreamOutcome.failure => ⟨none, true, "Ad", true⟩

/-- The transcription-failure path of `src/app/api/process-video/route.ts`
(lines 160–181): when audio extraction or Whisper fails the transcript is
set to `""` and the classifiers still run, yielding the multiplier,
safety flag and description used for naming. -/
def processVideoClassifyOnFailure : String × Bool × String :=
  (detectMultiplier "", isTTSSafe "", extractDescriptionPV "")

/-! ### Helper lemmas -/

theorem digitChar_isDigit (d : Nat) : (digitChar d).isDigit = true := by
  unfold digitChar
  repeat' split
  all_goals decide

theorem digitVal_digitChar {d : Nat} (h : d < 10) : digitVal (digitChar d) = d := by
  interval_cases d <;> decide

theorem natToDigitsAux_fuel :
    ∀ (f1 f2 n : Nat) (acc : List Char), n < f1 → n < f2 →
      natToDigitsAux f1 n acc = natToDigitsAux f2 n acc := by
  intro f1
  induction f1 with
  | zero => intro f2 n acc h1; omega
  | succ f1 ih =>
    intro f2 n acc h1 h2
    cases f2 with
    | zero => omega
    | succ f2 =>
      show (if n < 10 then _ else _) = (if n < 10 then _ else _)
      split
      · rfl
      · next h10 => exact ih f2 (n / 10) _ (by omega) (by omega)

theorem natToDigitsAux_acc :
    ∀ (f n : Nat) (acc : List Char),
      natToDigitsAux f n acc = natToDigitsAux f n [] ++ acc := by
  intro f
  induction f with
  | zero => intro n acc; rfl
  | succ f ih =>
    intro n acc
    show (if n < 10 then _ else _) = (if n < 10 then _ else _) ++ acc
    split
    · rfl
    · rw [ih (n / 10) (digitChar (n % 10) :: acc), ih (n / 10) [digitChar (n % 10)],
        List.append_assoc]
      rfl

/-- The recursion equation JS decimal rendering satisfies. -/
theorem natToDigits_eq (n : Nat) :
    natToDigits n =
      if n < 10 then [digitChar n]
      else natToDigits (n / 10) ++ [digitChar (n % 10)] := by
  show natToDigitsAux (n + 1) n [] = _
  rw [natToDigitsAux]
  split
  · rfl
  · next h =>
    rw [natToDigitsAux_acc, natToDigitsAux_fuel n (n / 10 + 1) (n / 10) [] (by omega) (by omega)]
    rfl

theorem natToDigits_all_digit (n : Nat) : ∀ c ∈ natToDigits n, c.isDigit = true := by
  induction n using Nat.strong_induction_on with
  | _ n ih =>
    rw [natToDigits_eq]
    split
    · intro c hc
      rw [List.mem_singleton] at hc
      subst hc
      exact digitChar_isDigit n
    · next h =>
      intro c hc
      rcases List.mem_append.mp hc with hm | hm
      · exact ih (n / 10) (Nat.div_lt_self (by omega) (by omega)) c hm
      · rw [List.mem_singleton] at hm
        subst hm
        exact digitChar_isDigit _

theorem natToDigits_ne_nil (n : Nat) : natToDigits n ≠ [] := by
  rw [natToDigits_eq]
  split <;> simp

theorem parseDigits_append_singleton (l : List Char) (c : Char) :
    parseDigits (l ++ [c]) = parseDigits l * 10 + digitVal c := by
  unfold parseDigits
  rw [List.foldl_append]
  rfl

theorem parseDigits_natToDigits (n : Nat) : parseDigits (natToDigits n) = n := by
  induction n using Nat.strong_induction_on with
  | _ n ih =>
    rw [natToDigits_eq]
    split
    · next h =>
      show 0 * 10 + digitVal (digitChar n) = n
      rw [digitVal_digitChar h]
      omega
    · next h =>
      rw [parseDigits_append_singleton,
        ih (n / 10) (Nat.div_lt_self (by omega) (by omega)),
        digitVal_digitChar (Nat.mod_lt n (by omega))]
      omega

theorem foldl_parse_zeros (k : Nat) :
    (List.replicate k '0').foldl (fun a c => a * 10 + digitVal c) 0 = 0 := by
  induction k with
  | zero => rfl
  | succ k ih =>
    rw [List.replicate_succ]
    show (List.replicate k '0').foldl _ (0 * 10 + digitVal '0') = 0
    have hz : 0 * 10 + digitVal '0' = 0 := by decide
    rw [hz]
    exact ih

theorem parseDigits_padStart (w : Nat) (l : List Char) :
    parseDigits (padStart w '0' l) = parseDigits l := by
  unfold padStart parseDigits
  rw [List.foldl_append, foldl_parse_zeros]

theorem padStart_parse (w n : Nat) :
    parseDigits (padStart w '0' (natToDigits n)) = n := by
  rw [parseDigits_padStart, parseDigits_natToDigits]

theorem padStart_all_digit (w n : Nat) :
    ∀ c ∈ padStart w '0' (natToDigits n), c.isDigit = true := by
  intro c hc
  rcases List.mem_append.mp hc with h | h
  · rw [List.eq_of_mem_replicate h]; decide
  · exact natToDigits_all_digit n c h

theorem padStart_ne_nil (w n : Nat) : padStart w '0' (natToDigits n) ≠ [] := by
  unfold padStart
  intro h
  rcases List.append_eq_nil.mp h with ⟨_, h2⟩
  exact natToDigits_ne_nil n h2

theorem takeWhile_append_cons_of {α} (p : α → Bool) (x : α) (hx : p x = false) :
    ∀ (l r : List α), (∀ c ∈ l, p c = true) → (l ++ x :: r).takeWhile p = l := by
  intro l
  induction l with
  | nil =>
    intro r _
    simp [List.takeWhile_cons, hx]
  | cons a t ih =>
    intro r hl
    have ha : p a = true := hl a (by simp)
    simp only [List.cons_append, List.takeWhile_cons, ha, if_true]
    rw [ih r (fun c hc => hl c (by simp [hc]))]

theorem append_sep_cancel {α} (p : α → Bool) (x : α) (hx : p x = false) :
    ∀ (l1 l2 r1 r2 : List α), (∀ c ∈ l1, p c = true) → (∀ c ∈ l2, p c = true) →
      l1 ++ x :: r1 = l2 ++ x :: r2 → l1 = l2 := by
  intro l1
  induction l1 with
  | nil =>
    intro l2 r1 r2 _ h2 heq
    cases l2 with
    | nil => rfl
    | cons b t =>
      simp only [List.nil_append, List.cons_append, List.cons.injEq] at heq
      have hb := h2 b (by simp)
      rw [← heq.1, hx] at hb
      cases hb
  | cons a t ih =>
    intro l2 r1 r2 h1 h2 heq
    cases l2 with
    | nil =>
      simp only [List.nil_append, List.cons_append, List.cons.injEq] at heq
      have ha := h1 a (by simp)
      rw [heq.1, hx] at ha
      cases ha
    | cons b t2 =>
      simp only [List.cons_append, List.cons.injEq] at heq
      rw [heq.1,
        ih t2 r1 r2 (fun c hc => h1 c (by simp [hc])) (fun c hc => h2 c (by simp [hc])) heq.2]

theorem find?_of_first {α} (p : α → Bool) :
    ∀ (l : List α) (i : Nat) (hi : i < l.length), p (l.get ⟨i, hi⟩) = true →
      (∀ j (hj : j < i), p (l.get ⟨j, Nat.lt_trans hj hi⟩) = false) →
      l.find? p = some (l.get ⟨i, hi⟩) := by
  intro l
  induction l with
  | nil => intro i hi; simp at hi
  | cons a t ih =>
    intro i hi hp hfirst
    cases i with
    | zero => exact List.find?_cons_of_pos t hp
    | succ i =>
      have ha : p a = false := hfirst 0 (Nat.succ_pos i)
      rw [List.find?_cons_of_neg t (by simp [ha])]
      exact ih i (Nat.lt_of_succ_lt_succ hi) hp
        (fun j hj => hfirst (j + 1) (Nat.succ_lt_succ hj))

theorem foldl_max_shift :
    ∀ (l : List Nat) (a b : Nat), l.foldl max (max a b) = max a (l.foldl max b) := by
  intro l
  induction l with
  | nil => intro a b; rfl
  | cons c t ih =>
    intro a b
    show t.foldl max (max (max a b) c) = max a (t.foldl max (max b c))
    rw [Nat.max_assoc, ih]

/-- `(l.asString).data = l`. -/
theorem data_asString (l : List Char) : (l.asString).data = l := rfl

/-! ### Claim theorems -/

/-- C1 (counterexample): the claim asserts `isSafe = true` for the transcript
`"Get triple entries before the contest ends! No payment needed."`, but the
classifier returns `false`: the transcript contains the denylisted phrase
`"payment"` (and its substring `"pay"`). -/
theorem C1_counterexample :
    isTTSSafe "Get triple entries before the contest ends! No payment needed." = false := by
  decide

/-- C1 (amended): for the transcript `"Get triple entries before the contest
ends! No payment needed."` the classifier returns `multiplierCode = "3000"`
and `description = "GetTripleEntriesBefore"` (the first at-most-4 significant
words), but `isSafe = false`, because the denylist contains `"payment"`. -/
theorem C1_triple_scenario :
    detectMultiplier "Get triple entries before the contest ends! No payment needed." = "3000"
    ∧ isTTSSafe "Get triple entries before the contest ends! No payment needed." = false
    ∧ extractDescription "Get triple entries before the contest ends! No payment needed."
        = "GetTripleEntriesBefore" := by
  refine ⟨by decide, by decide, by decide⟩

/-- C2: for every transcript, `extractDescription` (the stop-word dropping
variant of `src/app/api/transcribe/route.ts`) returns a string of length at
most 25 that is never empty, falling back to `"Ad"`. -/
theorem C2_extractDescription_bounds (t : String) :
    (extractDescription t).length ≤ 25 ∧ extractDescription t ≠ "" := by
  simp only [extractDescription]
  split
  · exact ⟨by decide, by decide⟩
  · next h =>
    constructor
    · exact List.length_take_le 25 _
    · intro hc
      have hnil := congrArg String.data hc
      rw [data_asString] at hnil
      rw [hnil] at h
      simp at h

/-- C4: any transcript containing a denylisted payment phrase as a
case-insensitive substring is classified unsafe; the empty transcript is
safe; `"Only $12.95 gets you extra entries"` is unsafe. -/
theorem C4_payment_denylist :
    (∀ t : String,
      (∃ p ∈ PAYMENT_PHRASES, jsIncludes (lowerL t) (lowerL p) = true) →
      isTTSSafe t = false)
    ∧ isTTSSafe "" = true
    ∧ isTTSSafe "Only $12.95 gets you extra entries" = false := by
  refine ⟨?_, by decide, by decide⟩
  rintro t ⟨p, hp, hinc⟩
  unfold isTTSSafe
  rw [List.any_eq_true.mpr ⟨p, hp, hinc⟩]
  rfl

/-- C4 witness: `"pay here"` contains the denylisted phrase `"pay"`, so the
general theorem applies and classifies it unsafe. -/
theorem C4_payment_denylist_witness : isTTSSafe "pay here" = false :=
  C4_payment_denylist.1 "pay here" ⟨"pay", by decide, by decide⟩

/-- C8: transcription failure never blocks naming: both the size-limit
branch and the error branch of the transcribe route answer with the safe
defaults `isTTSSafe = true`, `description = "Ad"` (plus a soft error flag),
and the process-video route's failure path (empty transcript) classifies to
multiplier `"1000"`, safe, description `"Ad"`. -/
theorem C8_safe_defaults :
    (transcribePost UpstreamOutcome.oversize).ttsSafe = true
    ∧ (transcribePost UpstreamOutcome.oversize).description = "Ad"
    ∧ (transcribePost UpstreamOutcome.oversize).isError = true
    ∧ (transcribePost UpstreamOutcome.failure).ttsSafe = true
    ∧ (transcribePost UpstreamOutcome.failure).description = "Ad"
    ∧ (transcribePost UpstreamOutcome.failure).isError = true
    ∧ processVideoClassifyOnFailure = ("1000", true, "Ad") := by
  refine ⟨rfl, rfl, rfl, rfl, rfl, rfl, by decide⟩

/-- C3: the allocation loop computes `max(startingSequence, maxFound + 1)`
over the values parsed from names matching `^<code>(\d+)`, and
`startingSequence` when nothing matches; in particular the spec's worked
example allocates `10`. -/
theorem C3_allocate :
    (∀ (code : String) (names : List String) (s : Nat),
      allocate code names s =
        if (names.filterMap (matchSeqPrefix code)).isEmpty then s
        else max s ((names.filterMap (matchSeqPrefix code)).foldl max 0 + 1))
    ∧ allocate "1000" ["100007.TTS...", "100009.TTS..."] 1 = 10 := by
  refine ⟨?_, by decide⟩
  intro code names
  induction names with
  | nil => intro s; rfl
  | cons n ns ih =>
    intro s
    have hcons : allocate code (n :: ns) s =
        allocate code ns
          (match matchSeqPrefix code n with
           | some v => if s ≤ v then v + 1 else s
           | none => s) := rfl
    rw [hcons]
    cases h : matchSeqPrefix code n with
    | none =>
      show allocate code ns s = _
      rw [ih s]
      simp [List.filterMap_cons, h]
    | some v =>
      have hstep : (match some v with
          | some v => if s ≤ v then v + 1 else s
          | none => s) = max s (v + 1) := by
        show (if s ≤ v then v + 1 else s) = max s (v + 1)
        split <;> omega
      rw [hstep, ih (max s (v + 1))]
      have hfold : ∀ vs : List Nat, (v :: vs).foldl max 0 = max v (vs.foldl max 0) := by
        intro vs
        show vs.foldl max (max 0 v) = _
        calc vs.foldl max (max 0 v) = vs.foldl max (max v 0) := by rw [Nat.zero_max, Nat.max_zero]
          _ = max v (vs.foldl max 0) := foldl_max_shift vs v 0
      simp only [List.filterMap_cons, h, List.isEmpty_cons, Bool.false_eq_true, if_false, hfold]
      cases hvs : ns.filterMap (matchSeqPrefix code) with
      | nil => simp
      | cons w ws =>
        simp only [List.isEmpty_cons, Bool.false_eq_true, if_false]
        omega

/-- Exact computation of the allocator's per-name matcher on a name of the
form `<code><digits>.<rest>`. -/
theorem matchSeqPrefix_exact {m name : String} {seqL r : List Char}
    (hname : name.data = m.data ++ (seqL ++ '.' :: r))
    (hdig : ∀ c ∈ seqL, c.isDigit = true) (hne : seqL ≠ []) :
    matchSeqPrefix m name = some (parseDigits seqL) := by
  unfold matchSeqPrefix
  have hpre : m.data.isPrefixOf name.data = true := by
    rw [hname]
    simp only [ List.isPrefixOf_iff_prefix]
    exact ⟨seqL ++ '.' :: r, rfl⟩
  simp only [hpre, if_true, hname, List.drop_left]
  rw [takeWhile_append_cons_of Char.isDigit '.' (by decide) seqL r hdig]
  have hemp : seqL.isEmpty = false := by
    cases hs : seqL with
    | nil => exact absurd hs hne
    | cons a t => rfl
  simp [hemp]

/-- C5: composing a process-video filename from multiplier code and
sequence `s` and re-matching it with the allocator's `^<code>(\d+)` pattern
recovers exactly `s`, for every multiplier, safety flag, creator code,
description and duration. -/
theorem C5_compose_roundtrip (m : String) (s : Nat) (tts : Bool)
    (cc d : String) (dur : Nat) :
    matchSeqPrefix m (composeProcessVideo m s tts cc d dur) = some s := by
  have hdot : ("." : String).data = ['.'] := rfl
  have htts : (".TTS" : String).data = ['.', 'T', 'T', 'S'] := rfl
  have hsuf : ("sec.mp4" : String).data = ['s', 'e', 'c', '.', 'm', 'p', '4'] := rfl
  cases tts
  case false =>
    have hname : (composeProcessVideo m s false cc d dur).data =
        m.data ++ (padStart 2 '0' (natToDigits s) ++ '.' ::
          (cc.data ++ '.' :: (d.data ++ '.' ::
            (natToDigits dur ++ ['s', 'e', 'c', '.', 'm', 'p', '4'])))) := by
      simp [composeProcessVideo, String.data_append, List.append_assoc,
        data_asString, hdot, hsuf]
    rw [matchSeqPrefix_exact hname (padStart_all_digit 2 s) (padStart_ne_nil 2 s),
      padStart_parse]
  case true =>
    have hname : (composeProcessVideo m s true cc d dur).data =
        m.data ++ (padStart 2 '0' (natToDigits s) ++ '.' ::
          ('T' :: 'T' :: 'S' :: '.' :: (cc.data ++ '.' :: (d.data ++ '.' ::
            (natToDigits dur ++ ['s', 'e', 'c', '.', 'm', 'p', '4']))))) := by
      simp [composeProcessVideo, String.data_append, List.append_assoc,
        data_asString, hdot, htts, hsuf]
    rw [matchSeqPrefix_exact hname (padStart_all_digit 2 s) (padStart_ne_nil 2 s),
      padStart_parse]

/-- C7: multiplier detection is total with codomain the six fixed codes,
the first matching rule in the ordered pattern list wins, and the default
is `"1000"` when no rule matches. -/
theorem C7_detectMultiplier (t : String) :
    detectMultiplier t ∈ MULTIPLIER_CODES
    ∧ (∀ i (hi : i < MULTIPLIER_PATTERNS.length),
        patTest (MULTIPLIER_PATTERNS.get ⟨i, hi⟩) t = true →
        (∀ j (hj : j < i),
          patTest (MULTIPLIER_PATTERNS.get ⟨j, Nat.lt_trans hj hi⟩) t = false) →
        detectMultiplier t = (MULTIPLIER_PATTERNS.get ⟨i, hi⟩).2)
    ∧ ((∀ i (hi : i < MULTIPLIER_PATTERNS.length),
        patTest (MULTIPLIER_PATTERNS.get ⟨i, hi⟩) t = false) →
        detectMultiplier t = "1000") := by
  refine ⟨?_, ?_, ?_⟩
  · unfold detectMultiplier
    cases h : MULTIPLIER_PATTERNS.find? (fun r => patTest r t) with
    | none => decide
    | some r =>
      have hall : ∀ x ∈ MULTIPLIER_PATTERNS, x.2 ∈ MULTIPLIER_CODES := by decide
      exact hall r (List.mem_of_find?_eq_some h)
  · intro i hi hp hfirst
    unfold detectMultiplier
    rw [find?_of_first (fun r => patTest r t) MULTIPLIER_PATTERNS i hi hp hfirst]
  · intro hnone
    have hn : MULTIPLIER_PATTERNS.find? (fun r => patTest r t) = none := by
      rw [List.find?_eq_none]
      intro x hx
      rcases List.mem_iff_get.mp hx with ⟨⟨i, hilt⟩, rfl⟩
      have h2 : patTest (MULTIPLIER_PATTERNS[i]) t = false := hnone i hilt
      simp [h2]
    unfold detectMultiplier
    rw [hn]

/-- C7 witness: no multiplier pattern fires on `"hello"`, so the general
theorem yields the default code. -/
theorem C7_detectMultiplier_witness : detectMultiplier "hello" = "1000" :=
  (C7_detectMultiplier "hello").2.2 (by decide)

/-- C9: the folder reference resolver returns the captured `/folders/<id>`
segment when present, else the trimmed input when it is a non-empty run of
id characters, else `none`; including the spec's three worked examples. -/
theorem C9_extractFolderId :
    extractFolderId "https://drive.google.com/drive/folders/ABC123" = some "ABC123"
    ∧ extractFolderId "ABC123" = some "ABC123"
    ∧ extractFolderId "not a url" = none
    ∧ (∀ id : String, id.data ≠ [] → id.data.all isIdChar = true →
        extractFolderId ("/folders/" ++ id) = some id)
    ∧ (∀ url : String, findFoldersId url.data = none →
        jsTrim url.data ≠ [] → (jsTrim url.data).all isIdChar = true →
        extractFolderId url = some (jsTrim url.data).asString)
    ∧ (∀ url : String, findFoldersId url.data = none →
        ((jsTrim url.data).isEmpty || !(jsTrim url.data).all isIdChar) = true →
        extractFolderId url = none) := by
  refine ⟨by decide, by decide, by decide, ?_, ?_, ?_⟩
  · intro id hne hall
    have htake : id.data.takeWhile isIdChar = id.data :=
      List.takeWhile_eq_self_iff.mpr (fun c hc => List.all_eq_true.mp hall c hc)
    have hemp : (id.data.takeWhile isIdChar).isEmpty = false := by
      rw [htake]
      cases hs : id.data with
      | nil => exact absurd hs hne
      | cons a l => rfl
    have hpref : ("/folders/".data.isPrefixOf
        ('/' :: 'f' :: 'o' :: 'l' :: 'd' :: 'e' :: 'r' :: 's' :: '/' :: id.data)) = true := by
      simp only [ List.isPrefixOf_iff_prefix]
      exact ⟨id.data, rfl⟩
    have hdrop : (('/' :: 'f' :: 'o' :: 'l' :: 'd' :: 'e' :: 'r' :: 's' :: '/' :: id.data).drop 9)
        = id.data := rfl
    have hfound : findFoldersId (("/folders/" ++ id).data) = some id.data := by
      show findFoldersId ('/' :: 'f' :: 'o' :: 'l' :: 'd' :: 'e' :: 'r' :: 's' :: '/' :: id.data) = _
      rw [findFoldersId]
      simp [hpref, hdrop, htake, hemp]
      intro h0
      exact absurd h0 hne
    unfold extractFolderId
    rw [hfound]
    show some (id.data.asString) = some id
    exact congrArg some (String.asString_toList id)
  · intro url hnone hne hall
    unfold extractFolderId
    rw [hnone]
    have hemp : (jsTrim url.data).isEmpty = false := by
      cases hs : jsTrim url.data with
      | nil => exact absurd hs hne
      | cons a l => rfl
    simp [hemp, hall]
  · intro url hnone hbad
    unfold extractFolderId
    rw [hnone]
    rcases Bool.or_eq_true_iff.mp hbad with h | h
    · simp [h]
    · have hfalse : (jsTrim url.data).all isIdChar = false := by
        simpa using h
      simp [hfalse]

/-- C9 witness: the general `/folders/<id>` branch applied to the id
`"XYZ"`. -/
theorem C9_extractFolderId_witness :
    extractFolderId ("/folders/" ++ "XYZ") = some "XYZ" :=
  C9_extractFolderId.2.2.2.1 "XYZ" (by decide) (by decide)

/-- Character-level shape of the composed filename of `src/app/page.tsx`. -/
theorem generateFileName_data (cfg : NamingConfig) (index : Nat)
    (multiplier : String) (ttsSafe : Bool) (description : String)
    (duration : Nat) :
    (generateFileName cfg index multiplier ttsSafe description duration).data =
      multiplier.data ++ (cfg.creatorCode.data ++
        (padStart 4 '0' (natToDigits (cfg.startingSequence + index)) ++
          '.' :: ((if ttsSafe then "TTS" else "NTTS") : String).data ++
          '.' :: cfg.initials.data ++
          '.' :: ((if description = "" then "Ad" else description) : String).data ++
          '.' :: (natToDigits duration ++ ['s', 'e', 'c', '.', 'm', 'p', '4']))) := by
  have hdot : ("." : String).data = ['.'] := rfl
  have hsuf : ("sec.mp4" : String).data = ['s', 'e', 'c', '.', 'm', 'p', '4'] := rfl
  simp [generateFileName, String.data_append, List.append_assoc, data_asString,
    hdot, hsuf]

/-- C6 (counterexample): the composer does not strip path separators: with
description `"a/b"` the composed filename contains `'/'`. -/
theorem C6_counterexample :
    (generateFileName ⟨"0", "CH", 1⟩ 0 "1" true "a/b" 5).data.contains '/' = true := by
  decide

/-- C6 (amended): the composer interpolates the description verbatim (it
never rejects or strips any character, path separators included): every
non-empty description occurs as a contiguous substring of the composed
filename; sanitization happens only in the UI input handler. -/
theorem C6_description_verbatim (cfg : NamingConfig) (index : Nat)
    (multiplier : String) (ttsSafe : Bool) (description : String)
    (duration : Nat) (h : description ≠ "") :
    description.data <:+:
      (generateFileName cfg index multiplier ttsSafe description duration).data := by
  rw [generateFileName_data]
  refine ⟨multiplier.data ++ (cfg.creatorCode.data ++
      (padStart 4 '0' (natToDigits (cfg.startingSequence + index)) ++
        '.' :: ((if ttsSafe then "TTS" else "NTTS") : String).data ++
        '.' :: cfg.initials.data ++ ['.'])),
    '.' :: (natToDigits duration ++ ['s', 'e', 'c', '.', 'm', 'p', '4']), ?_⟩
  rw [if_neg h]
  simp [List.append_assoc]

/-- C6 amended witness: the description `"Promo"` appears verbatim inside
the composed filename. -/
theorem C6_description_verbatim_witness :
    ("Promo" : String).data <:+:
      (generateFileName ⟨"0", "CH", 1⟩ 0 "3" true "Promo" 12).data :=
  C6_description_verbatim ⟨"0", "CH", 1⟩ 0 "3" true "Promo" 12 (by decide)

/-- C10 (counterexample): `generateFileName` is not injective in the batch
index when the per-video multiplier string is unconstrained: with the fixed
configuration (creator code `"0"`, initials `"CH"`, starting sequence 1),
index 0 with multiplier `"1"` and description `"D00002.TTS.CH.D"` composes
the same filename as index 1 with multiplier `"100001.TTS.CH.D"` and
description `"D"`. -/
theorem C10_counterexample :
    generateFileName ⟨"0", "CH", 1⟩ 0 "1" true "D00002.TTS.CH.D" 5 =
      generateFileName ⟨"0", "CH", 1⟩ 1 "100001.TTS.CH.D" true "D" 5
    ∧ (0 : Nat) ≠ 1 := by
  exact ⟨by decide, by decide⟩

/-- C10 (amended): when the two multiplier values are single characters —
as all values offered by `MULTIPLIER_OPTIONS` are — `generateFileName` is
injective in the batch index for a fixed configuration, whatever the safety
flags, descriptions and durations are. -/
theorem C10_injective_single_char (cfg : NamingConfig) (i j : Nat)
    (m1 m2 : String) (t1 t2 : Bool) (d1 d2 : String) (u1 u2 : Nat)
    (h1 : m1.data.length = 1) (h2 : m2.data.length = 1)
    (heq : generateFileName cfg i m1 t1 d1 u1 = generateFileName cfg j m2 t2 d2 u2) :
    i = j := by
  have hd := congrArg String.data heq
  rw [generateFileName_data, generateFileName_data] at hd
  cases hm1 : m1.data with
  | nil => rw [hm1] at h1; simp at h1
  | cons a ta =>
    cases ta with
    | cons x xs => rw [hm1] at h1; simp at h1
    | nil =>
      cases hm2 : m2.data with
      | nil => rw [hm2] at h2; simp at h2
      | cons b tb =>
        cases tb with
        | cons y ys => rw [hm2] at h2; simp at h2
        | nil =>
          rw [hm1, hm2] at hd
          simp only [List.cons_append, List.nil_append, List.cons.injEq] at hd
          have htail := List.append_cancel_left hd.2
          have hpads := append_sep_cancel Char.isDigit '.' (by decide)
            (padStart 4 '0' (natToDigits (cfg.startingSequence + i)))
            (padStart 4 '0' (natToDigits (cfg.startingSequence + j)))
            _ _ (padStart_all_digit 4 _) (padStart_all_digit 4 _)
            (by simpa [List.append_assoc] using htail)
          have hparse : parseDigits (padStart 4 '0' (natToDigits (cfg.startingSequence + i)))
              = parseDigits (padStart 4 '0' (natToDigits (cfg.startingSequence + j))) := by
            rw [hpads]
          rw [padStart_parse, padStart_parse] at hparse
          omega

/-- C10 amended witness: the injectivity theorem applied at two identical
single-character-multiplier calls. -/
theorem C10_injective_single_char_witness : (0 : Nat) = 0 :=
  C10_injective_single_char ⟨"0", "CH", 1⟩ 0 0 "1" "1" true true "Ad" "Ad" 5 5
    (by decide) (by decide) rfl

end AdNamingTool
